import Mathlib

/-!
Shallow embedding of the `tgf` library (files `tgf/core/tree.py` and
`tgf/core/parser.py`): a multi-rooted attributed tree data model together
with its XML and JSON mappings, and proofs about the behaviour of this code.

Python strings that may also be `None` are modelled by `Option String`
(abbreviated `PStr`); Python dicts (which preserve insertion order and have
unique keys) are modelled by association lists together with operations
`dictGet` / `dictSet` / `dictDel` / `dictUpdate` mirroring `d[k]`,
`d[k] = v`, `del d[k]` and `d.update(m)`.  Fallible code returns
`Except PyErr` (or a post-state paired with `Option PyErr` when the
exception can leave a partial mutation behind, as Python exceptions do).
-/

namespace Tgf

/-- A Python value that is either a `str` or `None`. -/
abbrev PStr := Option String

/-- Error kinds raised by the embedded code.  Each constructor documents the
concrete Python exception it models and, where the specification names one,
the corresponding specification error kind. -/
inductive PyErr where
  /-- Spec kind MalformedDocument: `tree.findall` on the `None` returned by
  `tgf_etree.find('tree')` raises `AttributeError` in `_parse_tgf`. -/
  | malformedDocument : PyErr
  /-- Spec kind KeyNotFound: `del self.attributes[key]` or a dict lookup
  `d[k]` raises `KeyError` for an absent key. -/
  | keyNotFound : PyErr
  /-- Spec kind InvalidArgument: the `assert isinstance(...)` guards and the
  explicit `raise Exception('Invalid argument...')` / `Exception('Bad
  input...')` of the mutation operations. -/
  | invalidArgument : PyErr
  /-- Spec kind NotFound: `list.remove` raises `ValueError` when the element
  is absent. -/
  | notFound : PyErr
  /-- The ElementTree writer raises `TypeError: cannot serialize None` when
  an XML attribute value is `None`. -/
  | cannotSerializeNone : PyErr
  /-- `fp.write` raises `AttributeError` when `json.dump` is given an object
  without a `write` method as its file parameter. -/
  | noWriteMethod : PyErr
  /-- The JSON encoder raises `TypeError: Object of type ... is not JSON
  serializable`. -/
  | notJsonSerializable : PyErr
deriving DecidableEq, Repr

/-! ### Python dict operations on association lists -/

/-- Python `d.get(k)` / `k in d`: first binding of the key, if any. -/
def dictGet {κ α : Type} [DecidableEq κ] : List (κ × α) → κ → Option α
  | [], _ => none
  | (k, v) :: rest, key => if k = key then some v else dictGet rest key

/-- Python `d[key] = v`: overwrite the binding of the key in place when it is
present (preserving its position, as insertion-ordered dicts do), append a
new binding at the end otherwise. -/
def dictSet {κ α : Type} [DecidableEq κ] : List (κ × α) → κ → α → List (κ × α)
  | [], key, v => [(key, v)]
  | (k, w) :: rest, key, v =>
    if k = key then (key, v) :: rest else (k, w) :: dictSet rest key v

/-- Python `del d[key]`: drop the binding of the key. -/
def dictDel {κ α : Type} [DecidableEq κ] : List (κ × α) → κ → List (κ × α)
  | [], _ => []
  | (k, w) :: rest, key => if k = key then rest else (k, w) :: dictDel rest key

/-- Python `d.update(m)`: assign each binding of `m` into `d`, in order. -/
def dictUpdate {κ α : Type} [DecidableEq κ] (d m : List (κ × α)) :
    List (κ × α) :=
  m.foldl (fun acc p => dictSet acc p.1 p.2) d

/-- The association list has pairwise distinct keys (every list reachable
through the dict operations from an empty dict has this shape, because
Python dicts cannot hold a key twice). -/
def noDupKeys {κ α : Type} [DecidableEq κ] : List (κ × α) → Bool
  | [] => true
  | (k, _) :: rest => rest.all (fun p => p.1 ≠ k) && noDupKeys rest

/-! ### The data model (`tgf/core/tree.py`) -/

/-- `Node`: a type tag (`node_type`, a `str` or `None`), an insertion-ordered
dict of attributes (`str`-or-`None` keys and values), and an ordered list of
child nodes.  The vestigial `root` field (never read by any operation in the
repository) is not carried. -/
inductive Node where
  | mk : PStr → List (PStr × PStr) → List Node → Node

/-- Accessor for the `node_type` field. -/
def Node.node_type : Node → PStr
  | .mk t _ _ => t

/-- Accessor for the `attributes` field. -/
def Node.attributes : Node → List (PStr × PStr)
  | .mk _ a _ => a

/-- Accessor for the `child_nodes` field. -/
def Node.child_nodes : Node → List Node
  | .mk _ _ cs => cs

/-- `Tree`: an ordered list of root nodes. -/
structure Tree where
  roots : List Node

/-- A Python runtime value, as far as the call sites of this library
distinguish them: a `Node`, a `Tree`, a `str`, or an open file object. -/
inductive PyObj where
  | pynode : Node → PyObj
  | pystr : String → PyObj
  | pyfile : PyObj
  | pytree : Tree → PyObj

/-- Python `isinstance(x, Node)`. -/
def PyObj.isNode : PyObj → Bool
  | .pynode _ => true
  | _ => false

/-- Whether the object has a callable `write` attribute (file-like).  Only
open file objects do; `Node`, `Tree` and `str` define no `write`. -/
def PyObj.hasWrite : PyObj → Bool
  | .pyfile => true
  | _ => false

/-- Whether the standard JSON encoder can serialize the object.  Strings
can be encoded; `Node`, `Tree` and file objects are not JSON serializable. -/
def PyObj.jsonEncodable : PyObj → Bool
  | .pystr _ => true
  | _ => false

/-! ### Node operations -/

/-- `Node.add_attribute`: `self.attributes[key] = value`.  No error. -/
def Node.add_attribute : Node → PStr → PStr → Node
  | .mk t a cs, key, value => .mk t (dictSet a key value) cs

/-- `Node.add_attributes` with a dict argument: `self.attributes.update(m)`.
The `isinstance(attributes, dict)` guard of the Python code (which raises
`Exception('Bad input...')` on a non-dict) is discharged statically by the
argument type here; every call in the repository passes a dict. -/
def Node.add_attributes : Node → List (PStr × PStr) → Node
  | .mk t a cs, m => .mk t (dictUpdate a m) cs

/-- `Node.remove_attribute`: `del self.attributes[key]`, which raises
`KeyError` (and leaves the dict untouched) when the key is absent.  Returns
the post-state paired with the exception, if any. -/
def Node.remove_attribute (self : Node) (key : PStr) : Node × Option PyErr :=
  if (dictGet self.attributes key).isSome then
    (.mk self.node_type (dictDel self.attributes key) self.child_nodes, none)
  else (self, some .keyNotFound)

/-- `Node.add_child`: `assert isinstance(child, Node)` then append.  The
failed assertion is the specification's InvalidArgument error; the append
does not happen in that case. -/
def Node.add_child (self : Node) (child : PyObj) : Node × Option PyErr :=
  match child with
  | .pynode c =>
    (.mk self.node_type self.attributes (self.child_nodes ++ [c]), none)
  | _ => (self, some .invalidArgument)

/-- `Node.add_children`: `for child in children: self.add_child(child)`.
The loop appends each valid child and stops at the first non-`Node`
element, whose failed assertion propagates; children already appended
remain (partial mutation).  The `hasattr(children, '__iter__')` guard is
statically discharged by the list argument type. -/
def Node.add_children (self : Node) : List PyObj → Node × Option PyErr
  | [] => (self, none)
  | c :: rest =>
    match self.add_child c with
    | (s, none) => s.add_children rest
    | (s, some e) => (s, some e)

/-- `Node.add_child` as called from the parser, where the argument is
statically a `Node` so the `isinstance` assertion always passes. -/
def Node.add_child_node (self : Node) (child : Node) : Node :=
  .mk self.node_type self.attributes (self.child_nodes ++ [child])

/-- `Node.add_children` over a list of values that are statically `Node`s
(the parser's `map(_parse_node, ...)`): every element is appended. -/
def Node.add_child_nodes (self : Node) : List Node → Node
  | [] => self
  | c :: rest => (self.add_child_node c).add_child_nodes rest

/-- `Node.__init__(root, attributes, children, node_type)`.  The body sets
the four fields, then runs

  `if attributes is not None and isinstance(attributes, dict): add_attributes`
  `if attributes is not None and hasattr(children, '__iter__'): add_children`

note that the second condition tests `attributes`, not `children` — the
children argument is consulted only when `attributes` was also supplied.
`none` models an argument left as the Python default `None`; a supplied
`attributes` is modelled as a dict and a supplied `children` as a list
(an iterable), which is what every call site in the repository passes. -/
def node_init (attributes : Option (List (PStr × PStr)))
    (children : Option (List PyObj)) (node_type : PStr := some "") :
    Node × Option PyErr :=
  let self : Node := .mk node_type [] []
  let self := match attributes with
    | some d => self.add_attributes d
    | none => self
  match attributes, children with
  | some _, some cs => self.add_children cs
  | _, _ => (self, none)

/-! ### Tree operations -/

/-- `Tree.add_root`: `assert isinstance(root, Node)` then append; the
parser's calls pass parsed `Node`s, so the assertion always passes. -/
def Tree.add_root (self : Tree) (root : Node) : Tree :=
  ⟨self.roots ++ [root]⟩

/-! ### JSON mapping (`to_dict` and `json.dump`) -/

/-- A JSON-encodable Python value: a string-or-`None` leaf, a list, or an
insertion-ordered dict. -/
inductive JVal where
  | jstr : PStr → JVal
  | jarr : List JVal → JVal
  | jobj : List (PStr × JVal) → JVal

mutual

/-- `Node.to_dict`: copy the attributes into a fresh dict, assign
`res_dict['children'] = []`, then append each child's `to_dict` to that
list.  An attribute stored under the key `'children'` is therefore
overwritten (in place, keeping its position) by the children list. -/
def Node.to_dict : Node → JVal
  | .mk _ attrs cs =>
    .jobj (dictSet (attrs.map (fun p => (p.1, JVal.jstr p.2)))
      (some "children") (.jarr (Node.to_dict_list cs)))

/-- The `for child in self.child_nodes: ... child.to_dict()` loop. -/
def Node.to_dict_list : List Node → List JVal
  | [] => []
  | c :: rest => Node.to_dict c :: Node.to_dict_list rest

end

/-- Subscripting a JSON mapping: the value bound to a key of a `jobj`. -/
def jobjGet : JVal → PStr → Option JVal
  | .jobj d, k => dictGet d k
  | _, _ => none

/-- `Tree.to_dict`: `{'roots': [root.to_dict() for root in self.roots]}`. -/
def Tree.to_dict (self : Tree) : JVal :=
  .jobj [(some "roots", .jarr (Node.to_dict_list self.roots))]

/-- `serialize_json_to_string`: `json.dumps(tree.to_dict())`.  The produced
JSON text is modelled by the mapping handed to the host encoder, which is a
fixed injective encoding of such mappings. -/
def serialize_json_to_string (tree : Tree) : JVal :=
  tree.to_dict

/-- Model of the standard library call `json.dump(obj, fp)`: lazily encode
`obj` (raising `TypeError` on the first chunk when `obj` is not JSON
serializable) and write the chunks via `fp.write` (raising `AttributeError`
when `fp` has no `write` method). -/
def json_dump (obj : PyObj) (fp : PyObj) : Except PyErr Unit :=
  if ¬ obj.jsonEncodable then .error .notJsonSerializable
  else if ¬ fp.hasWrite then .error .noWriteMethod
  else .ok ()

/-- `serialize_json_to_file(tree, filename_or_fp)`: the body is
`json.dump(filename_or_fp, tree)` — the file argument is passed as the
object to encode and the tree as the output stream. -/
def serialize_json_to_file (tree : Tree) (filename_or_fp : PyObj) :
    Except PyErr Unit :=
  json_dump filename_or_fp (.pytree tree)

/-! ### XML element trees

The host `xml.etree.ElementTree` library represents a parsed document as a
tree of elements; the library's parse and serialize functions consume and
produce such trees, delegating the byte-level XML syntax to the host.  An
element has a tag, an insertion-ordered attribute dict (string keys; the
values are strings in every parsed document, but user code — here, the
serializer — can store `None`, which the writer later rejects), optional
text content, and a list of child elements.  Tail text never arises in this
library's documents and is not carried. -/
inductive XmlElem where
  | mk : String → List (String × PStr) → PStr → List XmlElem → XmlElem

/-- Accessor for the element tag. -/
def XmlElem.tag : XmlElem → String
  | .mk t _ _ _ => t

/-- Accessor for the attribute dict. -/
def XmlElem.attrib : XmlElem → List (String × PStr)
  | .mk _ a _ _ => a

/-- Accessor for the text content. -/
def XmlElem.text : XmlElem → PStr
  | .mk _ _ x _ => x

/-- Accessor for the child elements. -/
def XmlElem.children : XmlElem → List XmlElem
  | .mk _ _ _ cs => cs

/-- `elem.attrib.get(key)`: Python returns the stored value (itself a
`str`-or-`None`) when the key is present and `None` otherwise, so the two
layers of optionality collapse. -/
def xattrGet (attrib : List (String × PStr)) (key : String) : PStr :=
  match dictGet attrib key with
  | some v => v
  | none => none

/-! ### Parser (`tgf/core/parser.py`, XML → Tree) -/

/-- `_parse_node_attributes`: iterate over `node_etree.findall('attribute')`
and build the dict `attributes[attribute.attrib['name']] = attribute.text`.
The dict subscript raises `KeyError` when an `attribute` element lacks a
`name` attribute.  The `findall` + build loop is fused into one pass over
the child list, skipping elements whose tag is not `attribute`. -/
def parse_node_attrs : List XmlElem → List (PStr × PStr) →
    Except PyErr (List (PStr × PStr))
  | [], acc => .ok acc
  | c :: rest, acc =>
    if c.tag = "attribute" then
      match dictGet c.attrib "name" with
      | none => .error .keyNotFound
      | some key => parse_node_attrs rest (dictSet acc key c.text)
    else parse_node_attrs rest acc

/-- `parsed_node.node_type = ...`: plain field assignment. -/
def Node.node_type_set : Node → PStr → Node
  | .mk _ a cs, t => .mk t a cs

mutual

/-- `_parse_node`: `Node()` then `node_type = node_etree.attrib.get('type')`,
`add_attributes(_parse_node_attributes(...))`, and
`add_children(map(_parse_node, node_etree.findall('node')))`. -/
def parse_node : XmlElem → Except PyErr Node
  | .mk _ attrib _ cs =>
    match parse_node_attrs cs [] with
    | .error e => .error e
    | .ok attrs =>
      match parse_node_children cs with
      | .error e => .error e
      | .ok kids =>
        .ok ((((Node.mk (some "") [] []).node_type_set
          (xattrGet attrib "type")).add_attributes attrs).add_child_nodes kids)

/-- `map(_parse_node, node_etree.findall('node'))`: parse each child element
tagged `node`, in document order, skipping other tags; the first parse
error propagates. -/
def parse_node_children : List XmlElem → Except PyErr (List Node)
  | [] => .ok []
  | c :: rest =>
    if c.tag = "node" then
      match parse_node c with
      | .error e => .error e
      | .ok n =>
        match parse_node_children rest with
        | .error e => .error e
        | .ok ns => .ok (n :: ns)
    else parse_node_children rest

end

/-- `_parse_tgf`: `tree = tgf_etree.find('tree')` (first direct child tagged
`tree`, or `None`); when it is `None` the subsequent `tree.findall('node')`
raises `AttributeError` (the MalformedDocument failure); otherwise each
direct `node` child is parsed and appended to a fresh `Tree` via
`add_root`. -/
def parse_tgf (tgf_etree : XmlElem) : Except PyErr Tree :=
  match tgf_etree.children.find? (fun c => c.tag = "tree") with
  | none => .error .malformedDocument
  | some tree =>
    match parse_node_children tree.children with
    | .error e => .error e
    | .ok ns => .ok (ns.foldl Tree.add_root ⟨[]⟩)

/-- `parse_string`: `ET.fromstring` hands the document's root element to
`_parse_tgf`.  The input text is modelled by the element tree the host
parser produces from it. -/
def parse_string (tgf_etree : XmlElem) : Except PyErr Tree :=
  parse_tgf tgf_etree

/-! ### Serializer (`tgf/core/parser.py`, Tree → XML) -/

/-- `_serialize_node_attributes`: one `<attribute name="key">value</attribute>`
subelement per attribute entry, in dict order. -/
def serialize_attr_elem (p : PStr × PStr) : XmlElem :=
  .mk "attribute" [("name", p.1)] p.2 []

mutual

/-- `_serialize_node`: a `<node type=...>` element carrying the node's
`node_type` (whatever value it holds, `None` included) as the `type`
attribute, the attribute subelements, then the recursively serialized
children. -/
def serialize_node : Node → XmlElem
  | .mk t attrs cs =>
    .mk "node" [("type", t)] none
      (attrs.map serialize_attr_elem ++ serialize_node_list cs)

/-- The `for child in node.child_nodes: _serialize_node(...)` loop. -/
def serialize_node_list : List Node → List XmlElem
  | [] => []
  | c :: rest => serialize_node c :: serialize_node_list rest

end

/-- `_serialize_tree`: a `<tgf version="1.0">` root holding one `<tree>`
element under which every Tree root is serialized in order. -/
def serialize_tree (tree : Tree) : XmlElem :=
  .mk "tgf" [("version", some "1.0")] none
    [.mk "tree" [] none (serialize_node_list tree.roots)]

/-- Text as recovered after a write / re-parse cycle: the ElementTree writer
emits the text only when it is truthy (so `None` and the empty string write
nothing, and an element without written content is emitted self-closing),
and the re-parsed element of a textless body has text `None`. -/
def normText (text : PStr) : PStr :=
  if text = some "" then none else text

mutual

/-- `ElementTree.write` followed by `ET.fromstring` on the produced bytes,
i.e. the element tree a consumer of the written document observes.  The
writer raises `TypeError: cannot serialize None` when any attribute value
in the document is `None`; otherwise tags, attributes (escaped and
unescaped exactly) and children survive, and text survives through
`normText`.  The XML declaration is presentation only and carries no model
content. -/
def et_write_read : XmlElem → Except PyErr XmlElem
  | .mk tag attrib text cs =>
    if attrib.any (fun p => p.2.isNone) then .error .cannotSerializeNone
    else
      match et_write_read_list cs with
      | .error e => .error e
      | .ok cs2 => .ok (.mk tag attrib (normText text) cs2)

/-- The document is written depth-first; the first `None`-valued attribute
anywhere aborts the write. -/
def et_write_read_list : List XmlElem → Except PyErr (List XmlElem)
  | [] => .ok []
  | c :: rest =>
    match et_write_read c with
    | .error e => .error e
    | .ok c2 =>
      match et_write_read_list rest with
      | .error e => .error e
      | .ok rest2 => .ok (c2 :: rest2)

end

/-- `serialize_to_string`: build the element tree with `_serialize_tree` and
write it to a byte buffer (UTF-8, with XML declaration).  The produced
bytes are modelled by the element tree they parse back to. -/
def serialize_to_string (tree : Tree) : Except PyErr XmlElem :=
  et_write_read (serialize_tree tree)

/-! ### Frame-explicit serializer

The Python serializer receives the (mutable) `Tree` object itself; to state
that it does not mutate its input, each statement of `_serialize_node` /
`_serialize_tree` is re-translated threading the node state through: every
read of a field flows into the rebuilt node that the call hands back. -/

mutual

/-- `_serialize_node` with the node state threaded through: returns the
produced element and the node as it stands after the call. -/
def serialize_node_fr : Node → XmlElem × Node
  | .mk t attrs cs =>
    let attrElems := attrs.map serialize_attr_elem
    let (childElems, cs2) := serialize_node_fr_list cs
    (.mk "node" [("type", t)] none (attrElems ++ childElems), .mk t attrs cs2)

/-- The serializing loop over `node.child_nodes`, threading each child. -/
def serialize_node_fr_list : List Node → List XmlElem × List Node
  | [] => ([], [])
  | c :: rest =>
    let (e, c2) := serialize_node_fr c
    let (es, rest2) := serialize_node_fr_list rest
    (e :: es, c2 :: rest2)

end

/-- `_serialize_tree` with the tree state threaded through. -/
def serialize_tree_fr (tree : Tree) : XmlElem × Tree :=
  let (rootElems, roots2) := serialize_node_fr_list tree.roots
  (.mk "tgf" [("version", some "1.0")] none [.mk "tree" [] none rootElems],
    ⟨roots2⟩)

/-- `serialize_to_string` with the tree state threaded through. -/
def serialize_to_string_fr (tree : Tree) : Except PyErr XmlElem × Tree :=
  let (doc, tree2) := serialize_tree_fr tree
  (et_write_read doc, tree2)

/-! ### Shape predicates used by the round-trip and failure analyses -/

mutual

/-- Every node of the subtree has a string `node_type`, a duplicate-free
attribute dict with string keys and non-empty string values.  These are the
nodes whose XML serialization the writer accepts and whose attribute values
survive the write / re-parse cycle intact. -/
def goodNode : Node → Bool
  | .mk t attrs cs =>
    t.isSome && noDupKeys attrs &&
      attrs.all (fun p => p.1.isSome && p.2.elim false (fun s => decide (s ≠ ""))) &&
      goodNodeList cs

/-- `goodNode` for every node of a list. -/
def goodNodeList : List Node → Bool
  | [] => true
  | c :: rest => goodNode c && goodNodeList rest

end

mutual

/-- Some node of the subtree has `node_type = None` (as `_parse_node`
produces for a `<node>` element lacking a `type` attribute). -/
def hasNoneTypeNode : Node → Bool
  | .mk t _ cs => t.isNone || hasNoneTypeNodeList cs

/-- `hasNoneTypeNode` somewhere in a list of nodes. -/
def hasNoneTypeNodeList : List Node → Bool
  | [] => false
  | c :: rest => hasNoneTypeNode c || hasNoneTypeNodeList rest

end

/-- `hasNoneTypeNode` somewhere among a tree's roots. -/
def Tree.hasNoneTypeNode (t : Tree) : Bool :=
  hasNoneTypeNodeList t.roots

/-! ## Basic structural lemmas -/

/-- Rebuilding a node from its three fields gives the node back. -/
theorem Node.eta : ∀ n : Node, Node.mk n.node_type n.attributes n.child_nodes = n
  | .mk _ _ _ => rfl

/-- Appending a batch of statically-typed children appends them in order. -/
theorem Node.add_child_nodes_mk : ∀ (ks : List Node) (t : PStr)
    (a : List (PStr × PStr)) (cs : List Node),
    (Node.mk t a cs).add_child_nodes ks = Node.mk t a (cs ++ ks) := by
  intro ks
  induction ks with
  | nil => intro t a cs; simp [Node.add_child_nodes]
  | cons k ks ih =>
    intro t a cs
    simp [Node.add_child_nodes, Node.add_child_node, Node.node_type,
      Node.attributes, Node.child_nodes, ih]

/-- Induction over the nested `Node` type: to prove a property of every
node it suffices to prove it for a node assuming it for each child. -/
theorem nodeInductionOn (P : Node → Prop)
    (step : ∀ t a cs, (∀ c ∈ cs, P c) → P (.mk t a cs)) : ∀ n, P n := by
  have H : ∀ k n, sizeOf n ≤ k → P n := by
    intro k
    induction k with
    | zero => intro n hn; cases n with | mk t a cs => simp at hn
    | succ k ih =>
      intro n hn
      cases n with
      | mk t a cs =>
        apply step
        intro c hc
        apply ih
        have h1 := List.sizeOf_lt_of_mem hc
        simp at hn
        omega
  intro n
  exact H (sizeOf n) n (le_refl _)

/-- Induction over the nested `XmlElem` type. -/
theorem xmlElemInductionOn (P : XmlElem → Prop)
    (step : ∀ t a x cs, (∀ c ∈ cs, P c) → P (.mk t a x cs)) : ∀ e, P e := by
  have H : ∀ k e, sizeOf e ≤ k → P e := by
    intro k
    induction k with
    | zero => intro e he; cases e with | mk t a x cs => simp at he
    | succ k ih =>
      intro e he
      cases e with
      | mk t a x cs =>
        apply step
        intro c hc
        apply ih
        have h1 := List.sizeOf_lt_of_mem hc
        simp at he
        omega
  intro e
  exact H (sizeOf e) e (le_refl _)

/-! ## Dict lemmas -/

section DictLemmas

variable {κ α : Type} [DecidableEq κ]

/-- A key is absent exactly when no binding carries it. -/
theorem dictGet_eq_none_iff (d : List (κ × α)) (k : κ) :
    dictGet d k = none ↔ ∀ p ∈ d, p.1 ≠ k := by
  induction d with
  | nil => simp [dictGet]
  | cons p rest ih =>
    obtain ⟨k1, v1⟩ := p
    by_cases h : k1 = k
    · subst h; simp [dictGet]
    · simp [dictGet, h, ih]

/-- Assigning an absent key appends its binding. -/
theorem dictSet_absent (d : List (κ × α)) (k : κ) (v : α)
    (h : dictGet d k = none) : dictSet d k v = d ++ [(k, v)] := by
  induction d with
  | nil => simp [dictSet]
  | cons p rest ih =>
    obtain ⟨k1, v1⟩ := p
    by_cases hk : k1 = k
    · subst hk; simp [dictGet] at h
    · simp [dictGet, hk] at h
      simp [dictSet, hk, ih h]

/-- Reading back a key that was just assigned. -/
theorem dictGet_set_self (d : List (κ × α)) (k : κ) (v : α) :
    dictGet (dictSet d k v) k = some v := by
  induction d with
  | nil => simp [dictSet, dictGet]
  | cons p rest ih =>
    obtain ⟨k1, v1⟩ := p
    by_cases hk : k1 = k
    · subst hk; simp [dictSet, dictGet]
    · simp [dictSet, dictGet, hk, ih]

/-- Deleting a key that only the final binding carries recovers the front. -/
theorem dictDel_append_absent (d : List (κ × α)) (k : κ) (v : α)
    (h : dictGet d k = none) : dictDel (d ++ [(k, v)]) k = d := by
  induction d with
  | nil => simp [dictDel]
  | cons p rest ih =>
    obtain ⟨k1, v1⟩ := p
    by_cases hk : k1 = k
    · subst hk; simp [dictGet] at h
    · simp [dictGet, hk] at h
      simp [dictDel, hk, ih h]

/-- Lookup distributes over append, preferring the front list. -/
theorem dictGet_append (d1 d2 : List (κ × α)) (k : κ) :
    dictGet (d1 ++ d2) k =
      match dictGet d1 k with
      | some v => some v
      | none => dictGet d2 k := by
  induction d1 with
  | nil => simp [dictGet]
  | cons p rest ih =>
    obtain ⟨k1, v1⟩ := p
    by_cases hk : k1 = k
    · subst hk; simp [dictGet]
    · simp [dictGet, hk, ih]

/-- Assigning a batch of bindings whose keys are fresh and pairwise distinct
appends the batch. -/
theorem foldl_dictSet_append (m : List (κ × α)) :
    ∀ acc : List (κ × α), noDupKeys m = true →
      (∀ p ∈ m, dictGet acc p.1 = none) →
      m.foldl (fun a p => dictSet a p.1 p.2) acc = acc ++ m := by
  induction m with
  | nil => intro acc _ _; simp
  | cons p rest ih =>
    intro acc hnd habs
    obtain ⟨k, v⟩ := p
    simp only [noDupKeys, Bool.and_eq_true, List.all_eq_true] at hnd
    obtain ⟨hkfresh, hndrest⟩ := hnd
    have h0 : dictGet acc k = none := habs (k, v) (by simp)
    simp only [List.foldl_cons]
    rw [dictSet_absent acc k v h0]
    rw [ih (acc ++ [(k, v)]) hndrest]
    · simp
    · intro q hq
      rw [dictGet_append]
      rw [habs q (by simp [hq])]
      have hqk : q.1 ≠ k := by
        have := hkfresh q hq
        simpa using this
      simp [dictGet, hqk]
      exact fun h => hqk h.symm

end DictLemmas

/-! ## Claim C2 — `serialize_json_to_file` -/

/-- C2: the claim states that `serialize_json_to_file` computes the tree's
`to_dict` mapping and writes its JSON encoding to the given stream,
succeeding.  The body actually executes `json.dump(filename_or_fp, tree)`,
passing the sink as the object to encode and the `Tree` as the stream, so
the call never succeeds on any input: with a path string it fails because
`Tree` has no `write` method, with a stream it fails because a stream is
not JSON serializable. -/
theorem C2_serialize_json_to_file_never_succeeds (t : Tree) (fp : PyObj) :
    serialize_json_to_file t fp ≠ .ok () := by
  cases fp <;>
    simp [serialize_json_to_file, json_dump, PyObj.jsonEncodable,
      PyObj.hasWrite]

/-! ## Claim C3 — missing `tree` element -/

/-- C3: for every input document whose root element has no direct child
tagged `tree`, parsing fails with the MalformedDocument error
(`tgf_etree.find('tree')` returns `None` and the subsequent `findall`
on it raises). -/
theorem C3_missing_tree_malformed (doc : XmlElem)
    (h : ∀ c ∈ doc.children, c.tag ≠ "tree") :
    parse_string doc = .error .malformedDocument := by
  have hf : doc.children.find? (fun c => c.tag = "tree") = none :=
    List.find?_eq_none.mpr (by intro c hc; simpa using h c hc)
  simp [parse_string, parse_tgf, hf]

/-- Witness for C3 at the concrete document `<tgf/>`. -/
theorem C3_witness :
    (∀ c ∈ (XmlElem.mk "tgf" [] none []).children, c.tag ≠ "tree") ∧
    parse_string (XmlElem.mk "tgf" [] none []) = .error .malformedDocument :=
  ⟨by simp [XmlElem.children],
    C3_missing_tree_malformed _ (by simp [XmlElem.children])⟩

/-! ## Claim C4 — `add_attribute` then `remove_attribute` -/

/-- C4 counterexample: on a node that already binds the key, assigning it
and then removing it deletes the key entirely instead of restoring the
previous value, so the attribute mapping differs from its prior value. -/
theorem C4_counterexample :
    (((Node.mk (some "") [(some "k", some "a")] []).add_attribute
        (some "k") (some "b")).remove_attribute (some "k")).1.attributes ≠
      (Node.mk (some "") [(some "k", some "a")] []).attributes := by
  decide

/-- C4 as amended: for every key NOT already present in the node's
attributes, `add_attribute` followed by `remove_attribute` with that key
restores the node (in particular its attribute mapping) to its prior
state, and the removal raises nothing. -/
theorem C4_add_remove_fresh_key (n : Node) (k v : PStr)
    (h : dictGet n.attributes k = none) :
    (n.add_attribute k v).remove_attribute k = (n, none) := by
  cases n with
  | mk t a cs =>
    simp only [Node.attributes] at h
    simp [Node.add_attribute, Node.remove_attribute, Node.attributes,
      Node.node_type, Node.child_nodes, dictSet_absent a k v h,
      dictGet_set_self, dictDel_append_absent a k v h,
      dictGet_append, h, dictGet]

/-- Witness for the amended C4 at a node without the key. -/
theorem C4_witness :
    dictGet (Node.mk (some "") [] [] : Node).attributes (some "k") = none ∧
    ((Node.mk (some "") [] []).add_attribute (some "k")
        (some "x")).remove_attribute (some "k") =
      (Node.mk (some "") [] [], none) :=
  ⟨rfl, C4_add_remove_fresh_key _ _ _ rfl⟩

/-! ## Claim C6 — removing an absent attribute -/

/-- C6: removing a key that is not bound in the node's attributes fails
with the KeyNotFound error and leaves the node (hence its attributes)
unchanged. -/
theorem C6_remove_absent_key (n : Node) (k : PStr)
    (h : dictGet n.attributes k = none) :
    n.remove_attribute k = (n, some .keyNotFound) := by
  simp [Node.remove_attribute, h]

/-- Witness for C6 at a node with an empty attribute dict. -/
theorem C6_witness :
    dictGet (Node.mk (some "") [] [] : Node).attributes (some "k") = none ∧
    (Node.mk (some "") [] []).remove_attribute (some "k") =
      (Node.mk (some "") [] [], some .keyNotFound) :=
  ⟨rfl, C6_remove_absent_key _ _ rfl⟩

/-! ## Claim C8 — constructor ignores `children` unless `attributes` given -/

/-- C8: the constructor guard for applying the `children` argument tests
`attributes is not None` (not `children`): with `attributes` left as
`None` and a non-empty children list supplied, the constructed node has no
children at all, while supplying `attributes` as a dict routes `children`
through `add_children`. -/
theorem C8_children_need_attributes (cs : List PyObj) (t : PStr)
    (h : cs ≠ []) :
    (node_init none (some cs) t).1.child_nodes = [] ∧
    (node_init none (some cs) t).1 = Node.mk t [] [] ∧
    (∀ d, node_init (some d) (some cs) t =
      ((Node.mk t [] []).add_attributes d).add_children cs) := by
  refine ⟨rfl, rfl, fun d => rfl⟩

/-- Witness for C8 with one supplied child. -/
theorem C8_witness :
    ([PyObj.pynode (.mk (some "") [] [])] ≠ ([] : List PyObj)) ∧
    (node_init none (some [PyObj.pynode (.mk (some "") [] [])])
      (some "")).1.child_nodes = [] :=
  ⟨by simp,
    (C8_children_need_attributes [PyObj.pynode (.mk (some "") [] [])]
      (some "") (by simp)).1⟩

/-! ## Claim C9 — the `children` attribute is lost by `to_dict` -/

/-- Assigning a key, mapping the values, and assigning the same key again
yields the same dict as skipping the first assignment: the first value is
completely overwritten. -/
theorem dictSet_map_dictSet (a : List (PStr × PStr)) (k : PStr) (v : PStr)
    (w : JVal) :
    dictSet ((dictSet a k v).map (fun p => (p.1, JVal.jstr p.2))) k w =
      dictSet (a.map (fun p => (p.1, JVal.jstr p.2))) k w := by
  induction a with
  | nil => simp [dictSet]
  | cons p rest ih =>
    obtain ⟨k1, v1⟩ := p
    by_cases hk : k1 = k
    · subst hk; simp [dictSet]
    · simp [dictSet, hk, ih]

/-- C9: `to_dict` always binds the result key `'children'` to the ordered
list of child mappings, so a `'children'` attribute stored on the node is
overwritten: its value is absent from the mapping (first conjunct), two
nodes whose attributes differ only in that value have identical mappings
(second conjunct), and identical JSON serializations when placed in a
tree (third conjunct). -/
theorem C9_children_attribute_discarded :
    (∀ n : Node, jobjGet n.to_dict (some "children") =
      some (.jarr (Node.to_dict_list n.child_nodes))) ∧
    (∀ t a cs v v', Node.to_dict (.mk t (dictSet a (some "children") v) cs) =
      Node.to_dict (.mk t (dictSet a (some "children") v') cs)) ∧
    (∀ t a cs v v',
      serialize_json_to_string ⟨[.mk t (dictSet a (some "children") v) cs]⟩ =
        serialize_json_to_string
          ⟨[.mk t (dictSet a (some "children") v') cs]⟩) := by
  refine ⟨?_, ?_, ?_⟩
  · intro n
    cases n with
    | mk t attrs cs => simp [Node.to_dict, jobjGet, dictGet_set_self,
        Node.child_nodes]
  · intro t a cs v v'
    simp [Node.to_dict, dictSet_map_dictSet]
  · intro t a cs v v'
    simp [serialize_json_to_string, Tree.to_dict, Node.to_dict_list,
      Node.to_dict, dictSet_map_dictSet]

/-! ## Claim C5 — `add_children` stops at the first non-Node -/

/-- C5: running `add_children` on a sequence whose elements up to index
`i = vs.length` are the Nodes `vs` and whose element at index `i` is not a
Node fails with the InvalidArgument error, and leaves the node's children
equal to their prior value extended by exactly `vs`, in order. -/
theorem C5_add_children_stops_at_first_invalid (n : Node) (vs : List Node)
    (bad : PyObj) (rest : List PyObj) (hbad : bad.isNode = false) :
    n.add_children (vs.map PyObj.pynode ++ bad :: rest) =
      (.mk n.node_type n.attributes (n.child_nodes ++ vs),
        some .invalidArgument) := by
  induction vs generalizing n with
  | nil =>
    cases bad with
    | pynode c => simp [PyObj.isNode] at hbad
    | pystr s => simp [Node.add_children, Node.add_child, Node.eta]
    | pyfile => simp [Node.add_children, Node.add_child, Node.eta]
    | pytree t => simp [Node.add_children, Node.add_child, Node.eta]
  | cons c vs ih =>
    have step : n.add_child (.pynode c) =
        (.mk n.node_type n.attributes (n.child_nodes ++ [c]), none) := rfl
    simp only [List.map_cons, List.cons_append, Node.add_children, step,
      List.append_eq]
    rw [ih]
    simp [Node.node_type, Node.attributes, Node.child_nodes]

/-- Witness for C5: one valid child followed by a string. -/
theorem C5_witness :
    (PyObj.pystr "x").isNode = false ∧
    (Node.mk (some "") [] []).add_children
        [PyObj.pynode (.mk (some "t") [] []), PyObj.pystr "x"] =
      (.mk (some "") [] [Node.mk (some "t") [] []],
        some PyErr.invalidArgument) :=
  ⟨rfl, C5_add_children_stops_at_first_invalid (Node.mk (some "") [] [])
    [.mk (some "t") [] []] (PyObj.pystr "x") [] rfl⟩

/-! ## Claim C7 — serialization does not mutate its input -/

/-- The threaded serializing loop hands back exactly the children it was
given and produces the same elements as the plain serializer, provided
each node does. -/
theorem serialize_node_fr_list_aux (cs : List Node)
    (h : ∀ c ∈ cs, (serialize_node_fr c).2 = c ∧
      (serialize_node_fr c).1 = serialize_node c) :
    (serialize_node_fr_list cs).2 = cs ∧
    (serialize_node_fr_list cs).1 = serialize_node_list cs := by
  induction cs with
  | nil => exact ⟨rfl, rfl⟩
  | cons c rest ih =>
    obtain ⟨h1, h2⟩ := h c (by simp)
    obtain ⟨h3, h4⟩ := ih (fun x hx => h x (by simp [hx]))
    simp [serialize_node_fr_list, serialize_node_list, h1, h2, h3, h4]

/-- The threaded node serializer hands back exactly the node it was given
and produces the same element as the plain serializer. -/
theorem serialize_node_fr_sound : ∀ n : Node,
    (serialize_node_fr n).2 = n ∧ (serialize_node_fr n).1 = serialize_node n := by
  apply nodeInductionOn
  intro t a cs ih
  obtain ⟨h1, h2⟩ := serialize_node_fr_list_aux cs ih
  simp [serialize_node_fr, serialize_node, h1, h2]

/-- C7: on every tree on which serialization succeeds, `serialize_to_string`
reads but does not mutate its input: the tree state threaded through every
statement of the serializer comes back equal to the input tree (so every
node keeps its `node_type`, `attributes` and `child_nodes`), and the
produced document is the plain serializer's. -/
theorem C7_serialize_preserves_tree (t : Tree)
    (h : ∃ doc, serialize_to_string t = .ok doc) :
    (serialize_to_string_fr t).2 = t ∧
    (serialize_to_string_fr t).1 = serialize_to_string t := by
  obtain ⟨hl1, hl2⟩ :=
    serialize_node_fr_list_aux t.roots (fun c _ => serialize_node_fr_sound c)
  constructor
  · show (serialize_tree_fr t).2 = t
    simp [serialize_tree_fr, hl1]
  · show et_write_read (serialize_tree_fr t).1 = serialize_to_string t
    simp [serialize_tree_fr, serialize_to_string, serialize_tree, hl2]

/-- Witness for C7 at a one-node tree, on which serialization succeeds. -/
theorem C7_witness :
    (∃ doc, serialize_to_string ⟨[Node.mk (some "T") [] []]⟩ = .ok doc) ∧
    (serialize_to_string_fr ⟨[Node.mk (some "T") [] []]⟩).2 =
      ⟨[Node.mk (some "T") [] []]⟩ :=
  ⟨⟨_, rfl⟩, (C7_serialize_preserves_tree ⟨[Node.mk (some "T") [] []]⟩
    ⟨_, rfl⟩).1⟩

/-! ## Claim C10 — `None` node types break XML serialization -/

/-- The writing loop either succeeds or fails with the
cannot-serialize-`None` error, given that each element does. -/
theorem et_write_read_list_kind_aux (cs : List XmlElem)
    (h : ∀ c ∈ cs, (∃ x, et_write_read c = .ok x) ∨
      et_write_read c = .error .cannotSerializeNone) :
    (∃ xs, et_write_read_list cs = .ok xs) ∨
    et_write_read_list cs = .error .cannotSerializeNone := by
  induction cs with
  | nil => exact .inl ⟨[], rfl⟩
  | cons c rest ih =>
    rcases h c (by simp) with ⟨x, hx⟩ | hx
    · rcases ih (fun e he => h e (by simp [he])) with ⟨xs, hxs⟩ | hxs
      · exact .inl ⟨x :: xs, by simp [et_write_read_list, hx, hxs]⟩
      · exact .inr (by simp [et_write_read_list, hx, hxs])
    · exact .inr (by simp [et_write_read_list, hx])

/-- The only error the ElementTree writer raises in this model is the
cannot-serialize-`None` one. -/
theorem et_write_read_kind : ∀ e : XmlElem,
    (∃ x, et_write_read e = .ok x) ∨
    et_write_read e = .error .cannotSerializeNone := by
  apply xmlElemInductionOn
  intro t a x cs ih
  by_cases ha : a.any (fun p => p.2.isNone)
  · exact .inr (by simp [et_write_read, ha])
  · rcases et_write_read_list_kind_aux cs ih with ⟨xs, hxs⟩ | hxs
    · exact .inl ⟨XmlElem.mk t a (normText x) xs,
        by simp [et_write_read, ha, hxs]⟩
    · exact .inr (by simp [et_write_read, ha, hxs])

/-- If some element of the list fails to write, the loop fails with the
cannot-serialize-`None` error. -/
theorem et_write_read_list_fails_of_mem (cs : List XmlElem)
    (h : ∃ c ∈ cs, et_write_read c = .error .cannotSerializeNone) :
    et_write_read_list cs = .error .cannotSerializeNone := by
  induction cs with
  | nil => simp at h
  | cons c rest ih =>
    rcases h with ⟨e, he, hee⟩
    rcases List.mem_cons.mp he with rfl | hmem
    · simp [et_write_read_list, hee]
    · rcases et_write_read_kind c with ⟨x, hx⟩ | hx
      · simp [et_write_read_list, hx, ih ⟨e, hmem, hee⟩]
      · simp [et_write_read_list, hx]

/-- The serializing loop is the elementwise map of `_serialize_node`. -/
theorem serialize_node_list_eq_map (cs : List Node) :
    serialize_node_list cs = cs.map serialize_node := by
  induction cs with
  | nil => rfl
  | cons c rest ih => simp [serialize_node_list, ih]

/-- A list of nodes contains a `None`-typed node exactly when one of its
members does. -/
theorem hasNoneTypeNodeList_iff (cs : List Node) :
    hasNoneTypeNodeList cs = true ↔ ∃ c ∈ cs, hasNoneTypeNode c = true := by
  induction cs with
  | nil => simp [hasNoneTypeNodeList]
  | cons c rest ih => simp [hasNoneTypeNodeList, ih]

/-- A subtree containing a `None`-typed node does not survive the writer:
its serialized element fails with the cannot-serialize-`None` error. -/
theorem serialize_fails_of_none_type : ∀ n : Node,
    hasNoneTypeNode n = true →
    et_write_read (serialize_node n) = .error .cannotSerializeNone := by
  apply nodeInductionOn
  intro t a cs ih h
  simp only [hasNoneTypeNode, Bool.or_eq_true] at h
  rcases h with ht | hcs
  · cases t with
    | none => simp [serialize_node, et_write_read]
    | some s => simp at ht
  · cases t with
    | none => simp [serialize_node, et_write_read]
    | some s =>
      obtain ⟨c, hc, hcn⟩ := (hasNoneTypeNodeList_iff cs).mp hcs
      have hfail : et_write_read_list
          (a.map serialize_attr_elem ++ serialize_node_list cs) =
          .error .cannotSerializeNone := by
        apply et_write_read_list_fails_of_mem
        refine ⟨serialize_node c, ?_, ih c hc hcn⟩
        rw [serialize_node_list_eq_map]
        exact List.mem_append_right _ (List.mem_map_of_mem _ hc)
      simp [serialize_node, et_write_read, hfail]

/-- C10: first conjunct — a `<node>` element without a `type` attribute is
parsed to a node whose `node_type` is `None`; second conjunct — XML
serialization of any tree containing a `None`-typed node fails, because
the serializer passes `node_type` as the `type` attribute value
unconditionally and the writer rejects `None` attribute values. -/
theorem C10_none_type_breaks_serialization :
    (∀ e : XmlElem, xattrGet e.attrib "type" = none →
      ∀ n, parse_node e = .ok n → n.node_type = none) ∧
    (∀ t : Tree, t.hasNoneTypeNode = true →
      serialize_to_string t = .error .cannotSerializeNone) := by
  constructor
  · intro e he n hn
    cases e with
    | mk tag a x cs =>
      simp only [XmlElem.attrib] at he
      rw [parse_node] at hn
      cases hpa : parse_node_attrs cs [] with
      | error err => rw [hpa] at hn; exact absurd hn (by simp)
      | ok attrs =>
        cases hpc : parse_node_children cs with
        | error err => rw [hpa, hpc] at hn; exact absurd hn (by simp)
        | ok kids =>
          rw [hpa, hpc] at hn
          simp only [Except.ok.injEq] at hn
          subst hn
          simp [he, Node.node_type_set, Node.add_attributes,
            Node.add_child_nodes_mk, Node.node_type]
  · intro t ht
    have hfail : et_write_read_list (serialize_node_list t.roots) =
        .error .cannotSerializeNone := by
      apply et_write_read_list_fails_of_mem
      obtain ⟨c, hc, hcn⟩ := (hasNoneTypeNodeList_iff t.roots).mp ht
      refine ⟨serialize_node c, ?_, serialize_fails_of_none_type c hcn⟩
      rw [serialize_node_list_eq_map]
      exact List.mem_map_of_mem _ hc
    simp [serialize_to_string, serialize_tree, et_write_read,
      et_write_read_list, hfail]

/-- Witness for C10: the element `<node/>` parses to a `None`-typed node,
and the one-node tree holding that node fails to serialize. -/
theorem C10_witness :
    (xattrGet (XmlElem.mk "node" [] none []).attrib "type" = none ∧
      (Tree.mk [Node.mk none [] []]).hasNoneTypeNode = true) ∧
    ((∀ n, parse_node (XmlElem.mk "node" [] none []) = .ok n →
        n.node_type = none) ∧
      serialize_to_string ⟨[Node.mk none [] []]⟩ =
        .error .cannotSerializeNone) :=
  ⟨⟨rfl, rfl⟩,
    ⟨C10_none_type_breaks_serialization.1 _ rfl,
      C10_none_type_breaks_serialization.2 ⟨[Node.mk none [] []]⟩ rfl⟩⟩

/-! ## Claim C1 — the XML round trip -/

/-- A list of nodes is good exactly when each of its members is. -/
theorem goodNodeList_iff (cs : List Node) :
    goodNodeList cs = true ↔ ∀ c ∈ cs, goodNode c = true := by
  induction cs with
  | nil => simp [goodNodeList]
  | cons c rest ih => simp [goodNodeList, ih]

/-- Serialized nodes are tagged `node`. -/
theorem serialize_node_tag (c : Node) : (serialize_node c).tag = "node" := by
  cases c with | mk t a cs => rfl

/-- Serialized attribute entries with a string key and a non-empty string
value pass through the writer unchanged. -/
theorem et_write_attr_elem (p : PStr × PStr) (hk : p.1.isSome = true)
    (hv : p.2.elim false (fun s => decide (s ≠ "")) = true) :
    et_write_read (serialize_attr_elem p) = .ok (serialize_attr_elem p) := by
  obtain ⟨pk, pv⟩ := p
  cases pk with
  | none => simp at hk
  | some k =>
    cases pv with
    | none => simp at hv
    | some s =>
      have hs : ¬ s = "" := by simpa using hv
      simp [serialize_attr_elem, et_write_read, et_write_read_list, normText,
        hs]

/-- The writing loop maps a list of elements that each write to
themselves to itself. -/
theorem et_list_ok_of_forall (l : List XmlElem)
    (h : ∀ c ∈ l, et_write_read c = .ok c) :
    et_write_read_list l = .ok l := by
  induction l with
  | nil => rfl
  | cons c rest ih =>
    simp [et_write_read_list, h c (by simp),
      ih (fun e he => h e (by simp [he]))]

/-- The serialization of a good node passes through the writer unchanged:
no attribute value is `None`, node elements carry no text, and attribute
texts are non-empty strings, so nothing is collapsed. -/
theorem good_write_id : ∀ n : Node, goodNode n = true →
    et_write_read (serialize_node n) = .ok (serialize_node n) := by
  apply nodeInductionOn
  intro t attrs cs ih h
  simp only [goodNode, Bool.and_eq_true, List.all_eq_true] at h
  obtain ⟨⟨⟨ht, _⟩, hattrs⟩, hcs⟩ := h
  have hlist : et_write_read_list
      (attrs.map serialize_attr_elem ++ serialize_node_list cs) =
      .ok (attrs.map serialize_attr_elem ++ serialize_node_list cs) := by
    apply et_list_ok_of_forall
    intro e he
    rcases List.mem_append.mp he with hA | hK
    · obtain ⟨p, hp, rfl⟩ := List.mem_map.mp hA
      have := hattrs p hp
      simp only [Bool.and_eq_true] at this
      exact et_write_attr_elem p this.1 this.2
    · rw [serialize_node_list_eq_map] at hK
      obtain ⟨c, hc, rfl⟩ := List.mem_map.mp hK
      exact ih c hc ((goodNodeList_iff cs).mp hcs c hc)
  cases t with
  | none => simp at ht
  | some s => simp [serialize_node, et_write_read, hlist, normText]

/-- The attribute-collecting pass ignores elements not tagged
`attribute`. -/
theorem parse_attrs_skip (l : List XmlElem)
    (h : ∀ e ∈ l, ¬ e.tag = "attribute") :
    ∀ acc, parse_node_attrs l acc = .ok acc := by
  induction l with
  | nil => intro acc; rfl
  | cons e rest ih =>
    intro acc
    simp [parse_node_attrs, h e (by simp), ih (fun x hx => h x (by simp [hx]))]

/-- The attribute-collecting pass over serialized attribute entries
followed by non-`attribute` elements assigns exactly those entries, in
order, into the accumulating dict. -/
theorem parse_attrs_over_serialized (attrs : List (PStr × PStr))
    (rest : List XmlElem) (hrest : ∀ e ∈ rest, ¬ e.tag = "attribute") :
    ∀ acc, parse_node_attrs (attrs.map serialize_attr_elem ++ rest) acc =
      .ok (attrs.foldl (fun a p => dictSet a p.1 p.2) acc) := by
  induction attrs with
  | nil => intro acc; simpa using parse_attrs_skip rest hrest acc
  | cons p ps ih =>
    intro acc
    obtain ⟨pk, pv⟩ := p
    simp [parse_node_attrs, serialize_attr_elem, XmlElem.tag, XmlElem.attrib,
      XmlElem.text, dictGet, ih]

/-- The child-parsing pass ignores elements not tagged `node`. -/
theorem parse_children_skip (l1 l2 : List XmlElem)
    (h : ∀ e ∈ l1, ¬ e.tag = "node") :
    parse_node_children (l1 ++ l2) = parse_node_children l2 := by
  induction l1 with
  | nil => rfl
  | cons e rest ih =>
    simp [parse_node_children, h e (by simp),
      ih (fun x hx => h x (by simp [hx]))]

/-- The child-parsing pass over serialized nodes that each parse back to
themselves recovers the original list. -/
theorem parse_children_of_serialized (cs : List Node)
    (h : ∀ c ∈ cs, parse_node (serialize_node c) = .ok c) :
    parse_node_children (serialize_node_list cs) = .ok cs := by
  induction cs with
  | nil => rfl
  | cons c rest ih =>
    rw [serialize_node_list]
    rw [parse_node_children]
    simp [serialize_node_tag, h c (by simp),
      ih (fun x hx => h x (by simp [hx]))]

/-- Parsing inverts serialization on every good node. -/
theorem parse_serialize_node : ∀ n : Node, goodNode n = true →
    parse_node (serialize_node n) = .ok n := by
  apply nodeInductionOn
  intro t attrs cs ih h
  simp only [goodNode, Bool.and_eq_true, List.all_eq_true] at h
  obtain ⟨⟨⟨ht, hnd⟩, hattrs⟩, hcs⟩ := h
  have hKtags : ∀ e ∈ serialize_node_list cs, ¬ e.tag = "attribute" := by
    rw [serialize_node_list_eq_map]
    intro e he
    obtain ⟨c, hc, rfl⟩ := List.mem_map.mp he
    simp [serialize_node_tag]
  have hAtags : ∀ e ∈ attrs.map serialize_attr_elem, ¬ e.tag = "node" := by
    intro e he
    obtain ⟨p, hp, rfl⟩ := List.mem_map.mp he
    simp [serialize_attr_elem, XmlElem.tag]
  have hpa : parse_node_attrs
      (attrs.map serialize_attr_elem ++ serialize_node_list cs) [] =
      .ok attrs := by
    rw [parse_attrs_over_serialized attrs _ hKtags []]
    rw [foldl_dictSet_append attrs [] hnd (by intro p hp; rfl)]
    simp
  have hpc : parse_node_children
      (attrs.map serialize_attr_elem ++ serialize_node_list cs) =
      .ok cs := by
    rw [parse_children_skip _ _ hAtags]
    exact parse_children_of_serialized cs
      (fun c hc => ih c hc ((goodNodeList_iff cs).mp hcs c hc))
  rw [serialize_node]
  rw [parse_node]
  rw [hpa, hpc]
  simp [xattrGet, dictGet, Node.node_type_set, Node.add_attributes,
    dictUpdate, foldl_dictSet_append attrs [] hnd (fun p hp => rfl),
    Node.add_child_nodes_mk]

/-- Adding roots one by one appends them to the root list. -/
theorem foldl_add_root (ns : List Node) :
    ∀ acc : List Node, ns.foldl Tree.add_root ⟨acc⟩ = ⟨acc ++ ns⟩ := by
  induction ns with
  | nil => intro acc; simp
  | cons n rest ih =>
    intro acc
    simp only [List.foldl_cons, Tree.add_root]
    rw [ih (acc ++ [n])]
    simp

/-- C1 as amended: for every tree with at least one root in which every
node has a string `node_type` and a (duplicate-free) attribute dict whose
keys are strings and whose values are NON-EMPTY strings, parsing the
serialized document reproduces the tree exactly — same roots in the same
order, and recursively equal nodes.  (The original claim allowed empty
attribute values; the counterexample shows those do not survive the round
trip, because the writer emits a self-closing element for falsy text and
the re-parsed value is `None`.) -/
theorem C1_round_trip_nonempty_values (t : Tree) (h1 : t.roots ≠ [])
    (h2 : goodNodeList t.roots = true) :
    (serialize_to_string t).bind parse_string = .ok t := by
  have hroots := (goodNodeList_iff t.roots).mp h2
  have hK : et_write_read_list (serialize_node_list t.roots) =
      .ok (serialize_node_list t.roots) := by
    apply et_list_ok_of_forall
    rw [serialize_node_list_eq_map]
    intro e he
    obtain ⟨c, hc, rfl⟩ := List.mem_map.mp he
    exact good_write_id c (hroots c hc)
  have hdoc : serialize_to_string t = .ok (serialize_tree t) := by
    simp [serialize_to_string, serialize_tree, et_write_read,
      et_write_read_list, hK, normText]
  rw [hdoc]
  have hP : parse_node_children (serialize_node_list t.roots) =
      .ok t.roots :=
    parse_children_of_serialized _
      (fun c hc => parse_serialize_node c (hroots c hc))
  show parse_string (serialize_tree t) = .ok t
  simp [parse_string, parse_tgf, serialize_tree, XmlElem.children,
    XmlElem.tag, hP, foldl_add_root]

/-- C1 counterexample: a root whose single attribute has the empty string
as its value — a string-to-string attribute mapping, as the claim
requires — does not round-trip: the re-parsed attribute value is `None`,
not `""`. -/
theorem C1_counterexample :
    (serialize_to_string ⟨[Node.mk (some "T") [(some "k", some "")] []]⟩).bind
        parse_string ≠
      .ok ⟨[Node.mk (some "T") [(some "k", some "")] []]⟩ := by
  have h : (serialize_to_string
        ⟨[Node.mk (some "T") [(some "k", some "")] []]⟩).bind parse_string =
      .ok ⟨[Node.mk (some "T") [(some "k", none)] []]⟩ := rfl
  rw [h]
  intro hc
  simp at hc

/-- Witness for the amended C1 at a two-level tree with a non-empty
attribute value. -/
theorem C1_witness :
    ((Tree.mk [Node.mk (some "T") [(some "k", some "v")]
        [Node.mk (some "P") [] []]]).roots ≠ [] ∧
      goodNodeList (Tree.mk [Node.mk (some "T") [(some "k", some "v")]
        [Node.mk (some "P") [] []]]).roots = true) ∧
    (serialize_to_string ⟨[Node.mk (some "T") [(some "k", some "v")]
        [Node.mk (some "P") [] []]]⟩).bind parse_string =
      .ok ⟨[Node.mk (some "T") [(some "k", some "v")]
        [Node.mk (some "P") [] []]]⟩ :=
  ⟨⟨by simp, by decide⟩,
    C1_round_trip_nonempty_values _ (by simp) (by decide)⟩

end Tgf
